import Mathlib

/-!
# Verification of `controllers/userController.go`

The three gin handlers `SignUp`, `LogIn` and `LogOut` are embedded as pure
functions from the database contents and the request to the database contents
after the call and the HTTP response.

* The database (`initializers.DB`) is a value of type `Store`: three tables held
  as lists of rows.  `Create`, `Save` and `First` follow the behaviour of gorm on
  a relational database: `Create` rejects a duplicated primary key (and a
  duplicated e-mail for users), `Save` updates every column of the row with the
  given primary key and inserts when there is none, `First` returns the matching
  row with the least primary key.  A write statement may also fail for a reason
  outside the program (connection lost, disk full, ...): one flag of `Env` per
  write statement decides it.  The reading statements and the begin and the
  commit of a transaction are taken to reach the database.
* `Transaction` runs its closure on the contents of the database; the closure
  returns the contents it has written so far together with its error.  The
  writes are kept when the error is nil and dropped otherwise.
* What a call reads from outside the program (the random bytes of `uuid.New` and
  of the bcrypt salt, the clock, the `SECRET` variable) is a field of `Env`.
* bcrypt and the HS256 signer are the fields of `Crypto`.
-/

namespace Controllers

/-! ## Identifiers (github.com/google/uuid) -/

/-- A 128 bit identifier, read as a big-endian number. -/
abbrev UUID := Nat

/-- The value `uuid.Nil`: sixteen zero bytes. -/
def uuidNil : UUID := 0

/-- The call `uuid.New()` on sixteen random bytes `r`: byte 6 becomes
`(b & 0x0f) | 0x40` (version 4) and byte 8 becomes `(b & 0x3f) | 0x80`
(RFC 4122 variant). Byte `i` holds the bits `8 * (15 - i)` and up. -/
def uuidNew (r : Nat) : UUID :=
  let x := r % 2 ^ 128
  let b6 := x / 2 ^ 72 % 256
  let b8 := x / 2 ^ 56 % 256
  x - b6 * 2 ^ 72 - b8 * 2 ^ 56 + (b6 % 16 + 64) * 2 ^ 72 + (b8 % 64 + 128) * 2 ^ 56

/-! ## Data model (package `models`) -/

/-- Modelled from the spec: the declaration of `models.User` is not part of the
sources. Fields as used by the handlers (`ID`, `Email`, `Password`, `Token`);
the spec gives it a unique id and a unique email. -/
structure User where
  ID : UUID
  Email : String
  Password : String
  Token : String
deriving DecidableEq, Repr

/-- The zero value of `models.User` (`var user models.User`). -/
def User.zero : User := ⟨uuidNil, "", "", ""⟩

/-- Modelled from the spec: the declaration of `models.Customer` is not part of
the sources. Fields as used by the handlers; the spec gives it a unique id. -/
structure Customer where
  ID : UUID
  FirstName : String
  LastName : String
  UserID : UUID
deriving DecidableEq, Repr

/-- Modelled from the spec: the declaration of `models.History` is not part of
the sources. Fields as used by `LogIn`; `Date` is a `time.Time`, held as
nanoseconds since the epoch; `Customer` is the association field, not a column. -/
structure History where
  HistoryID : UUID
  Date : Int
  Activity : String
  CustomerID : UUID
  Customer : Customer
deriving DecidableEq, Repr

/-- The contents of the database. -/
structure Store where
  users : List User
  customers : List Customer
  histories : List History
deriving DecidableEq, Repr

/-- The errors a transaction closure returns. -/
inductive Err where
  | duplicatedKey
  | recordNotFound
  | signing
  | driver
deriving DecidableEq, Repr

/-! ## Collaborators -/

/-- The claims of the token built in `LogIn`: `sub` and `exp`. -/
structure Claims where
  sub : UUID
  exp : Int
deriving DecidableEq, Repr

/-- The cryptographic primitives.
* `GenerateFromPassword salt password cost` is bcrypt with the random salt made
  explicit; `none` is a non-nil error.
* `CompareHashAndPassword hash password` is `true` when bcrypt returns nil.
* `SignedString key claims` is `jwt.NewWithClaims(HS256, claims).SignedString(key)`.
* `subject token` reads the `sub` claim back from the payload of a token
  string; a signed token carries its claims, which `subject_SignedString` says. -/
structure Crypto where
  GenerateFromPassword : Nat → String → Nat → Option String
  CompareHashAndPassword : String → String → Bool
  SignedString : String → Claims → Option String
  subject : String → Option UUID
  subject_SignedString : ∀ key claims token,
    SignedString key claims = some token → subject token = some claims.sub

/-- What one call of a handler reads from outside the program. -/
structure Env where
  /-- random bytes of the bcrypt salt -/
  salt : Nat
  /-- random bytes of the first `uuid.New()` of the call -/
  rand1 : Nat
  /-- random bytes of the second `uuid.New()` of the call -/
  rand2 : Nat
  /-- the first `time.Now()` of the call, nanoseconds since the epoch -/
  now1 : Int
  /-- the second `time.Now()` of the call, nanoseconds since the epoch -/
  now2 : Int
  /-- the value of `os.Getenv("SECRET")` -/
  secret : String
  /-- the statement `tx.Create(&user)` fails in the driver -/
  createUserErr : Bool
  /-- the statement `tx.Create(&customer)` fails in the driver -/
  createCustomerErr : Bool
  /-- the statement `tx.Save(&user)` fails in the driver -/
  saveUserErr : Bool
  /-- the statement `tx.Create(&history)` fails in the driver -/
  createHistoryErr : Bool

/-- The status and the JSON object (`gin.H`) written by `c.JSON`. -/
structure Response where
  status : Nat
  body : List (String × String)
deriving DecidableEq, Repr

/-- The constant `time.Hour`, in nanoseconds. -/
def hour : Int := 3600 * 10 ^ 9

/-- The method `Time.Unix`: seconds since the epoch, rounded down. -/
def unix (t : Int) : Int := t / 10 ^ 9

/-! ## Database statements (gorm.io/gorm) -/

/-- The matching row with the least primary key: `ORDER BY key LIMIT 1`. -/
def leastBy {α : Type} (key : α → UUID) : List α → Option α
  | [] => none
  | r :: rs =>
    match leastBy key rs with
    | none => some r
    | some a => if key a < key r then some a else some r

/-- The query `First(&row, cond)` over a table. -/
def firstBy {α : Type} (key : α → UUID) (cond : α → Bool) (rows : List α) : Option α :=
  leastBy key (rows.filter cond)

/-- The query `DB.First(&user, "email = ?", email)`. -/
def firstUserByEmail (db : Store) (email : String) : Option User :=
  firstBy User.ID (fun u => decide (u.Email = email)) db.users

/-- The query `DB.First(&user, id)`: the row with this primary key. -/
def firstUserByID (db : Store) (id : UUID) : Option User :=
  firstBy User.ID (fun u => decide (u.ID = id)) db.users

/-- Modelled from the spec: the authentication middleware is not part of the
sources. The spec says of it that it "checks signature validity and expiry and
resolves a User by subject claim". `parse` is the parser of the token library
with the secret: the claims of a token whose signature is valid, `none`
otherwise; `now` is the clock of the request in seconds; a token is expired
when its `exp` is before `now`. -/
def middlewareResolve (parse : String → Option Claims) (now : Int) (db : Store)
    (token : String) : Option User :=
  match parse token with
  | none => none
  | some claims => if claims.exp < now then none else firstUserByID db claims.sub

/-- The query `tx.First(&customer, "user_id = ?", id)`. -/
def firstCustomerByUserID (tx : Store) (id : UUID) : Option Customer :=
  firstBy Customer.ID (fun c => decide (c.UserID = id)) tx.customers

/-- The statement `tx.Create(&user)`: the primary key and the email are unique,
as the spec says of `models.User`. -/
def createUser (fault : Bool) (u : User) (tx : Store) : Store × Option Err :=
  if fault then (tx, some Err.driver)
  else if ∃ r ∈ tx.users, r.ID = u.ID then (tx, some Err.duplicatedKey)
  else if ∃ r ∈ tx.users, r.Email = u.Email then (tx, some Err.duplicatedKey)
  else ({ tx with users := tx.users ++ [u] }, none)

/-- The statement `tx.Create(&customer)`: the primary key is unique. -/
def createCustomer (fault : Bool) (c : Customer) (tx : Store) : Store × Option Err :=
  if fault then (tx, some Err.driver)
  else if ∃ r ∈ tx.customers, r.ID = c.ID then (tx, some Err.duplicatedKey)
  else ({ tx with customers := tx.customers ++ [c] }, none)

/-- The statement `tx.Save(&user)`: a zero primary key inserts; otherwise every
column of the row with this primary key is updated, and the row is inserted
when no row was updated. -/
def saveUser (fault : Bool) (u : User) (tx : Store) : Store × Option Err :=
  if u.ID = uuidNil then createUser fault u tx
  else if fault then (tx, some Err.driver)
  else if ∃ r ∈ tx.users, r.ID = u.ID then
    if ∃ r ∈ tx.users, r.ID ≠ u.ID ∧ r.Email = u.Email then (tx, some Err.duplicatedKey)
    else ({ tx with users := tx.users.map (fun r => if r.ID = u.ID then u else r) }, none)
  else createUser fault u tx

/-- The statement `tx.Create(&history)`: the association `Customer` is inserted
first with `ON CONFLICT DO NOTHING`, then the row, whose primary key is unique. -/
def createHistory (fault : Bool) (h : History) (tx : Store) : Store × Option Err :=
  if fault then (tx, some Err.driver)
  else
    let tx1 : Store :=
      if ∃ c ∈ tx.customers, c.ID = h.Customer.ID then tx
      else { tx with customers := tx.customers ++ [h.Customer] }
    if ∃ r ∈ tx1.histories, r.HistoryID = h.HistoryID then (tx1, some Err.duplicatedKey)
    else ({ tx1 with histories := tx1.histories ++ [h] }, none)

/-- The method `DB.Transaction(fc)`: `fc` runs on the contents of the database
and returns the variables it captured, the contents it wrote and its error; the
writes are committed when the error is nil and rolled back otherwise. -/
def Transaction {σ : Type} (db : Store) (fc : Store → σ × Store × Option Err) :
    σ × Store × Option Err :=
  match fc db with
  | (v, tx, none) => (v, tx, none)
  | (v, _, some e) => (v, db, some e)

/-! ## SignUp -/

/-- The request body of `SignUp` after `c.Bind`; a field absent from the request
is the empty string, the struct has no `binding` tag. -/
structure SignUpBody where
  Email : String
  Password : String
  FirstName : String
  LastName : String
deriving DecidableEq, Repr

/-- The closure of the transaction of `SignUp`. -/
def signUpTx (env : Env) (body : SignUpBody) (hash : String) (tx : Store) :
    Unit × Store × Option Err :=
  let user : User := ⟨uuidNew env.rand1, body.Email, hash, ""⟩
  match createUser env.createUserErr user tx with
  | (tx1, some e) => ((), tx1, some e)
  | (tx1, none) =>
    let customer : Customer := ⟨uuidNew env.rand2, body.FirstName, body.LastName, user.ID⟩
    match createCustomer env.createCustomerErr customer tx1 with
    | (tx2, some e) => ((), tx2, some e)
    | (tx2, none) => ((), tx2, none)

/-- The handler `SignUp`; `req` is `none` when `c.Bind(&body)` returns an error. -/
def SignUp (cr : Crypto) (env : Env) (db : Store) (req : Option SignUpBody) :
    Store × Response :=
  match req with
  | none => (db, ⟨400, [("error", "Failed to read request body")]⟩)
  | some body =>
    match cr.GenerateFromPassword env.salt body.Password 10 with
    | none => (db, ⟨400, [("error", "Failed to hash password")]⟩)
    | some hash =>
      match Transaction db (signUpTx env body hash) with
      | (_, db1, some _) => (db1, ⟨400, [("error", "Failed to create User and Customer")]⟩)
      | (_, db1, none) =>
        (db1, ⟨200, [("first_name", body.FirstName), ("last_name", body.LastName),
          ("email", body.Email)]⟩)

/-! ## LogIn -/

/-- The request body of `LogIn` after `c.Bind`. -/
structure LogInBody where
  Email : String
  Password : String
deriving DecidableEq, Repr

/-- The closure of the transaction of `LogIn`; the first component is the
captured variable `user` when the closure returns. -/
def logInTx (cr : Crypto) (env : Env) (user : User) (tx : Store) :
    User × Store × Option Err :=
  let claims : Claims := ⟨user.ID, unix (env.now1 + hour * 24 * 30)⟩
  match cr.SignedString env.secret claims with
  | none => (user, tx, some Err.signing)
  | some tokenString =>
    let user1 : User := { user with Token := tokenString }
    match saveUser env.saveUserErr user1 tx with
    | (tx1, some e) => (user1, tx1, some e)
    | (tx1, none) =>
      match firstCustomerByUserID tx1 user1.ID with
      | none => (user1, tx1, some Err.recordNotFound)
      | some customer =>
        let history : History :=
          ⟨uuidNew env.rand1, env.now2, "User logged in", customer.ID, customer⟩
        match createHistory env.createHistoryErr history tx1 with
        | (tx2, some e) => (user1, tx2, some e)
        | (tx2, none) => (user1, tx2, none)

/-- The handler `LogIn`; `req` is `none` when `c.Bind(&body)` returns an error. -/
def LogIn (cr : Crypto) (env : Env) (db : Store) (req : Option LogInBody) :
    Store × Response :=
  match req with
  | none => (db, ⟨400, [("error", "Failed to read request body")]⟩)
  | some body =>
    let user : User := (firstUserByEmail db body.Email).getD User.zero
    if user.ID = uuidNil then (db, ⟨401, [("error", "User not found")]⟩)
    else if cr.CompareHashAndPassword user.Password body.Password = false then
      (db, ⟨400, [("error", "Incorrect password")]⟩)
    else
      match Transaction db (logInTx cr env user) with
      | (_, db1, some _) => (db1, ⟨400, [("error", "Failed to create token and update user")]⟩)
      | (user1, db1, none) => (db1, ⟨200, [("token", user1.Token)]⟩)

/-! ## LogOut -/

/-- A value stored in the keys of a `gin.Context`, with its dynamic type. -/
inductive CtxValue where
  | user (u : User)
  | userPtr (u : User)
  | str (s : String)
  | null
deriving DecidableEq, Repr

/-- The keys of a `gin.Context`. -/
abbrev Context := List (String × CtxValue)

/-- The method `c.Get(key)`. -/
def Context.Get (c : Context) (key : String) : Option CtxValue :=
  c.lookup key

/-- The closure of the transaction of `LogOut`. -/
def logOutTx (env : Env) (u : User) (tx : Store) : User × Store × Option Err :=
  let u1 : User := { u with Token := "" }
  match saveUser env.saveUserErr u1 tx with
  | (tx1, some e) => (u1, tx1, some e)
  | (tx1, none) => (u1, tx1, none)

/-- The handler `LogOut`. -/
def LogOut (env : Env) (db : Store) (c : Context) : Store × Response :=
  match c.Get "user" with
  | none => (db, ⟨401, [("error", "User not found")]⟩)
  | some (CtxValue.user u) =>
    match Transaction db (logOutTx env u) with
    | (_, db1, some _) => (db1, ⟨400, [("error", "Failed to log out User")]⟩)
    | (_, db1, none) => (db1, ⟨200, [("message", "User successfully logged out")]⟩)
  | some _ => (db, ⟨500, [("error", "Failed to cast user object")]⟩)

/-! ## Specification vocabulary -/

/-- The invariant of the database: the key constraints of the tables, the
identifiers issued by `uuid.New`, the tokens issued by `LogIn` and the
one-to-one link from customers to users. -/
structure WF (cr : Crypto) (db : Store) : Prop where
  userIDs : (db.users.map User.ID).Nodup
  userEmails : (db.users.map User.Email).Nodup
  userIDsNotNil : ∀ u ∈ db.users, u.ID ≠ uuidNil
  userTokens : ∀ u ∈ db.users, u.Token ≠ "" → cr.subject u.Token = some u.ID
  customerIDs : (db.customers.map Customer.ID).Nodup
  customerUsers : (db.customers.map Customer.UserID).Nodup
  customerOwner : ∀ c ∈ db.customers, ∃ u ∈ db.users, u.ID = c.UserID
  historyIDs : (db.histories.map History.HistoryID).Nodup

/-- The user row `SignUp` inserts for a body and a digest. -/
def newUser (env : Env) (body : SignUpBody) (digest : String) : User :=
  ⟨uuidNew env.rand1, body.Email, digest, ""⟩

/-- The customer row `SignUp` inserts for a body. -/
def newCustomer (env : Env) (body : SignUpBody) : Customer :=
  ⟨uuidNew env.rand2, body.FirstName, body.LastName, uuidNew env.rand1⟩

/-- A step of `SignUp` fails: the binding, the hashing, the insert of the user or
the insert of the customer. -/
def signUpStepFails (cr : Crypto) (env : Env) (db : Store) : Option SignUpBody → Bool
  | none => true
  | some body =>
    match cr.GenerateFromPassword env.salt body.Password 10 with
    | none => true
    | some digest =>
      (createUser env.createUserErr (newUser env body digest) db).2.isSome ||
      (createCustomer env.createCustomerErr (newCustomer env body)
        (createUser env.createUserErr (newUser env body digest) db).1).2.isSome

/-- A bcrypt and a signer small enough to evaluate: the digest is the password
after a tag, passwords longer than 72 bytes are refused, and the token of a
subject `n` is `n` letters. -/
def demoCrypto : Crypto where
  GenerateFromPassword := fun _ pw _ => if pw.length ≤ 72 then some ("bcrypt:" ++ pw) else none
  CompareHashAndPassword := fun h pw => decide (h = "bcrypt:" ++ pw)
  SignedString := fun _ c => some (String.mk (List.replicate c.sub 'x'))
  subject := fun t => some t.length
  subject_SignedString := by
    intro key claims token h
    simp only [Option.some.injEq] at h
    subst h
    simp [String.length]

/-- The parser that goes with `demoCrypto`: the subject of a token is its
length; every token expires at 1702592000. -/
def demoParse (token : String) : Option Claims :=
  some ⟨token.length, 1702592000⟩

/-- An environment without driver errors. -/
def demoEnv : Env :=
  ⟨1, 2, 3, 1700000000123456789, 1700000000123456999, "secret", false, false, false, false⟩

/-- An environment in which the insert of the History row fails in the driver. -/
def demoEnvHistoryErr : Env :=
  ⟨1, 2, 3, 1700000000123456789, 1700000000123456999, "secret", false, false, false, true⟩

/-- The empty database. -/
def emptyStore : Store := ⟨[], [], []⟩

/-- A database with two users, the second one logged in, and their customers. -/
def demoStore : Store :=
  ⟨[⟨7, "ann@example.org", "bcrypt:pw", ""⟩, ⟨9, "bob@example.org", "bcrypt:pw2", "xxxxxxxxx"⟩],
   [⟨11, "Ann", "Lee", 7⟩, ⟨12, "Bob", "Ray", 9⟩], []⟩

/-! ## Lemmas on the database statements -/

theorem uuidNew_ne_nil (r : Nat) : uuidNew r ≠ uuidNil := by
  unfold uuidNew uuidNil
  have h : 0 < (r % 2 ^ 128 / 2 ^ 56 % 256 % 64 + 128) * 2 ^ 56 := by positivity
  exact Nat.ne_of_gt (Nat.add_pos_right _ h)

theorem leastBy_eq_none {α : Type} (key : α → UUID) (l : List α) :
    leastBy key l = none ↔ l = [] := by
  cases l with
  | nil => simp [leastBy]
  | cons r rs =>
    simp only [leastBy]
    split <;> [simp; (split <;> simp)]

theorem leastBy_mem {α : Type} (key : α → UUID) (l : List α) (a : α)
    (h : leastBy key l = some a) : a ∈ l := by
  induction l generalizing a with
  | nil => simp [leastBy] at h
  | cons r rs ih =>
    simp only [leastBy] at h
    split at h
    · simp only [Option.some.injEq] at h
      simp [h]
    · rename_i b hb
      split at h
      · simp only [Option.some.injEq] at h
        subst h
        exact List.mem_cons_of_mem _ (ih b hb)
      · simp only [Option.some.injEq] at h
        simp [h]

theorem firstBy_eq_none {α : Type} (key : α → UUID) (cond : α → Bool) (l : List α) :
    firstBy key cond l = none ↔ ∀ r ∈ l, cond r = false := by
  simp [firstBy, leastBy_eq_none, List.filter_eq_nil_iff]

theorem firstBy_some {α : Type} (key : α → UUID) (cond : α → Bool) (l : List α) (a : α)
    (h : firstBy key cond l = some a) : a ∈ l ∧ cond a = true := by
  have := leastBy_mem key _ a h
  simpa [List.mem_filter] using this

theorem firstBy_unique {α : Type} (key : α → UUID) (cond : α → Bool) (l : List α) (a : α)
    (ha : a ∈ l) (hc : cond a = true) (huniq : ∀ r ∈ l, cond r = true → r = a) :
    firstBy key cond l = some a := by
  cases hf : firstBy key cond l with
  | none =>
    have := (firstBy_eq_none key cond l).1 hf a ha
    simp [hc] at this
  | some b =>
    have hb := firstBy_some key cond l b hf
    rw [huniq b hb.1 hb.2]

theorem createUser_ok (fault : Bool) (u : User) (tx : Store)
    (h : (createUser fault u tx).2 = none) :
    createUser fault u tx = (⟨tx.users ++ [u], tx.customers, tx.histories⟩, none) ∧
      fault = false ∧ (∀ r ∈ tx.users, r.ID ≠ u.ID) ∧ (∀ r ∈ tx.users, r.Email ≠ u.Email) := by
  unfold createUser at h ⊢
  split at h
  · simp at h
  · split at h
    · simp at h
    · split at h
      · simp at h
      · rename_i h1 h2 h3
        simp only [h1, h2, h3, if_false, Bool.false_eq_true, true_and]
        refine ⟨?_, ?_⟩
        · intro r hr he
          exact h2 ⟨r, hr, he⟩
        · intro r hr he
          exact h3 ⟨r, hr, he⟩

theorem createUser_err (fault : Bool) (u : User) (tx : Store)
    (h : (createUser fault u tx).2 ≠ none) : (createUser fault u tx).1 = tx := by
  unfold createUser at h ⊢
  split
  · rfl
  · split
    · rfl
    · split
      · rfl
      · rename_i h1 h2 h3
        simp [h1, h2, h3] at h

theorem createCustomer_ok (fault : Bool) (c : Customer) (tx : Store)
    (h : (createCustomer fault c tx).2 = none) :
    createCustomer fault c tx = (⟨tx.users, tx.customers ++ [c], tx.histories⟩, none) ∧
      fault = false ∧ (∀ r ∈ tx.customers, r.ID ≠ c.ID) := by
  unfold createCustomer at h ⊢
  split at h
  · simp at h
  · split at h
    · simp at h
    · rename_i h1 h2
      simp only [h1, h2, if_false, Bool.false_eq_true, true_and]
      intro r hr he
      exact h2 ⟨r, hr, he⟩

theorem createCustomer_err (fault : Bool) (c : Customer) (tx : Store)
    (h : (createCustomer fault c tx).2 ≠ none) : (createCustomer fault c tx).1 = tx := by
  unfold createCustomer at h ⊢
  split
  · rfl
  · split
    · rfl
    · rename_i h1 h2
      simp [h1, h2] at h

theorem createUser_duplicate_email (fault : Bool) (u : User) (tx : Store)
    (h : ∃ r ∈ tx.users, r.Email = u.Email) : (createUser fault u tx).2 ≠ none := by
  intro hn
  obtain ⟨r, hr, he⟩ := h
  exact (createUser_ok fault u tx hn).2.2.2 r hr he

/-! ## SignUp -/

theorem signUpTx_ok (env : Env) (body : SignUpBody) (digest : String) (db : Store)
    (huser : (createUser env.createUserErr (newUser env body digest) db).2 = none)
    (hcust : (createCustomer env.createCustomerErr (newCustomer env body)
      (createUser env.createUserErr (newUser env body digest) db).1).2 = none) :
    signUpTx env body digest db =
      ((), ⟨db.users ++ [newUser env body digest],
        db.customers ++ [newCustomer env body], db.histories⟩, none) := by
  have h1 := (createUser_ok _ _ _ huser).1
  rw [h1] at hcust
  have h2 := (createCustomer_ok _ _ _ hcust).1
  unfold newUser at h1 h2
  unfold newCustomer at h2
  simp only [signUpTx, newUser, newCustomer, h1, h2]

theorem signUpTx_err (env : Env) (body : SignUpBody) (digest : String) (db : Store)
    (h : (createUser env.createUserErr (newUser env body digest) db).2 ≠ none ∨
      (createCustomer env.createCustomerErr (newCustomer env body)
        (createUser env.createUserErr (newUser env body digest) db).1).2 ≠ none) :
    (signUpTx env body digest db).2.2 ≠ none := by
  unfold newUser newCustomer at h
  simp only [signUpTx]
  split
  · simp
  · rename_i tx1 h1
    rw [h1] at h
    split
    · simp
    · rename_i tx2 h2
      rw [h2] at h
      simp at h

theorem Transaction_err {σ : Type} (db : Store) (fc : Store → σ × Store × Option Err)
    (h : (fc db).2.2 ≠ none) :
    (Transaction db fc).2.1 = db ∧ (Transaction db fc).2.2 ≠ none := by
  unfold Transaction
  split
  · rename_i v tx heq
    simp [heq] at h
  · simp

theorem Transaction_ok {σ : Type} (db : Store) (fc : Store → σ × Store × Option Err)
    (h : (fc db).2.2 = none) : Transaction db fc = fc db := by
  unfold Transaction
  split
  · rename_i v tx heq
    rw [heq]
  · rename_i v tx e heq
    simp [heq] at h

theorem SignUp_of_fails (cr : Crypto) (env : Env) (db : Store) (req : Option SignUpBody)
    (h : signUpStepFails cr env db req = true) :
    ∃ msg, SignUp cr env db req = (db, ⟨400, [("error", msg)]⟩) := by
  cases req with
  | none => exact ⟨_, rfl⟩
  | some body =>
    simp only [signUpStepFails] at h
    simp only [SignUp]
    split
    · exact ⟨_, rfl⟩
    · rename_i digest hd
      rw [hd] at h
      simp only [Bool.or_eq_true, Option.isSome_iff_ne_none] at h
      have ht := Transaction_err db (signUpTx env body digest) (signUpTx_err env body digest db h)
      split
      · rename_i u db1 e heq
        rw [heq] at ht
        simp only at ht
        rw [ht.1]
        exact ⟨_, rfl⟩
      · rename_i u db1 heq
        rw [heq] at ht
        simp at ht

theorem SignUp_of_not_fails (cr : Crypto) (env : Env) (db : Store) (body : SignUpBody)
    (h : signUpStepFails cr env db (some body) = false) :
    ∃ digest, cr.GenerateFromPassword env.salt body.Password 10 = some digest ∧
      SignUp cr env db (some body) =
        (⟨db.users ++ [newUser env body digest], db.customers ++ [newCustomer env body],
          db.histories⟩,
         ⟨200, [("first_name", body.FirstName), ("last_name", body.LastName),
          ("email", body.Email)]⟩) := by
  simp only [signUpStepFails] at h
  cases hd : cr.GenerateFromPassword env.salt body.Password 10 with
  | none => simp [hd] at h
  | some digest =>
    rw [hd] at h
    simp only [Bool.or_eq_false_iff, ← Option.not_isSome, Bool.not_eq_true,
      Option.not_isSome, Option.isNone_iff_eq_none] at h
    refine ⟨digest, rfl, ?_⟩
    have htx := signUpTx_ok env body digest db h.1 h.2
    simp only [SignUp, hd]
    rw [Transaction_ok db _ (by rw [htx]), htx]

/-- C1: a SignUp request with a fresh email, for which hashing (cost 10) and
both inserts succeed, leaves the store with exactly one more User (the request's
email, the digest of its password) and one more Customer (the request's names,
`UserID` the new user's id), and answers 200 with exactly `first_name`,
`last_name` and `email`. -/
theorem SignUp_creates_user_and_customer (cr : Crypto) (env : Env) (db : Store)
    (body : SignUpBody) (digest : String)
    (hfresh : ∀ r ∈ db.users, r.Email ≠ body.Email)
    (hhash : cr.GenerateFromPassword env.salt body.Password 10 = some digest)
    (huser : (createUser env.createUserErr (newUser env body digest) db).2 = none)
    (hcust : (createCustomer env.createCustomerErr (newCustomer env body)
      (createUser env.createUserErr (newUser env body digest) db).1).2 = none) :
    SignUp cr env db (some body) =
      (⟨db.users ++ [⟨uuidNew env.rand1, body.Email, digest, ""⟩],
        db.customers ++
          [⟨uuidNew env.rand2, body.FirstName, body.LastName, uuidNew env.rand1⟩],
        db.histories⟩,
       ⟨200, [("first_name", body.FirstName), ("last_name", body.LastName),
        ("email", body.Email)]⟩) := by
  have _ := hfresh
  have htx := signUpTx_ok env body digest db huser hcust
  simp only [SignUp, hhash]
  rw [Transaction_ok db _ (by rw [htx]), htx]
  rfl

theorem SignUp_creates_user_and_customer_witness :
    SignUp demoCrypto demoEnv demoStore (some ⟨"cy@example.org", "pw3", "Cy", "Moss"⟩) =
      (⟨demoStore.users ++ [⟨uuidNew 2, "cy@example.org", "bcrypt:pw3", ""⟩],
        demoStore.customers ++ [⟨uuidNew 3, "Cy", "Moss", uuidNew 2⟩], []⟩,
       ⟨200, [("first_name", "Cy"), ("last_name", "Moss"), ("email", "cy@example.org")]⟩) :=
  SignUp_creates_user_and_customer demoCrypto demoEnv demoStore
    ⟨"cy@example.org", "pw3", "Cy", "Moss"⟩ "bcrypt:pw3" (by decide) (by decide) (by decide)
    (by decide)

/-- C2: a SignUp request that fails at any step (the binding, the hashing, the
insert of the User, in particular on an email already stored, or the insert of
the Customer) leaves the store as it was and answers 400 with an error
message. -/
theorem SignUp_failure_rolls_back (cr : Crypto) (env : Env) (db : Store)
    (req : Option SignUpBody)
    (h : (SignUp cr env db req).2.status ≠ 200 ∨ signUpStepFails cr env db req = true ∨
      ∃ body, req = some body ∧ ∃ r ∈ db.users, r.Email = body.Email) :
    (SignUp cr env db req).1 = db ∧ (SignUp cr env db req).2.status = 400 ∧
      ∃ msg, (SignUp cr env db req).2.body = [("error", msg)] := by
  have hfails : signUpStepFails cr env db req = true := by
    rcases h with h | h | ⟨body, rfl, hdup⟩
    · by_contra hn
      cases req with
      | none => exact hn rfl
      | some body =>
        obtain ⟨digest, _, heq⟩ :=
          SignUp_of_not_fails cr env db body (Bool.eq_false_iff.2 hn)
        rw [heq] at h
        exact h rfl
    · exact h
    · simp only [signUpStepFails]
      split
      · rfl
      · simp only [Bool.or_eq_true, Option.isSome_iff_ne_none]
        exact Or.inl (createUser_duplicate_email _ _ _ hdup)
  obtain ⟨msg, heq⟩ := SignUp_of_fails cr env db req hfails
  rw [heq]
  exact ⟨rfl, rfl, msg, rfl⟩

theorem SignUp_failure_rolls_back_witness :
    (SignUp demoCrypto demoEnv demoStore (some ⟨"ann@example.org", "pw3", "Cy", "Moss"⟩)).1 =
        demoStore ∧
      (SignUp demoCrypto demoEnv demoStore
        (some ⟨"ann@example.org", "pw3", "Cy", "Moss"⟩)).2.status = 400 ∧
      ∃ msg, (SignUp demoCrypto demoEnv demoStore
        (some ⟨"ann@example.org", "pw3", "Cy", "Moss"⟩)).2.body = [("error", msg)] :=
  SignUp_failure_rolls_back demoCrypto demoEnv demoStore
    (some ⟨"ann@example.org", "pw3", "Cy", "Moss"⟩)
    (Or.inr (Or.inr ⟨_, rfl, ⟨7, "ann@example.org", "bcrypt:pw", ""⟩, by decide, rfl⟩))

/-- C10, as stated, fails: a request whose four fields are all empty is served;
on the empty store it creates a User and a Customer and is answered 200. -/
theorem SignUp_empty_fields_counterexample :
    SignUp demoCrypto demoEnv emptyStore (some ⟨"", "", "", ""⟩) =
      (⟨[⟨uuidNew 2, "", "bcrypt:", ""⟩], [⟨uuidNew 3, "", "", uuidNew 2⟩], []⟩,
       ⟨200, [("first_name", ""), ("last_name", ""), ("email", "")]⟩) := by
  decide

/-- C10, amended: SignUp does not check that the four fields are present. A bound
request with an empty email, password, first name or last name fails, and then
leaves the store as it was and is answered 400, exactly when the hashing or one
of the two inserts fails; otherwise it creates one User holding the given email
and the digest of the given password and one Customer holding the given names
and linked to that User, empty values included, and is answered 200 with the
given `first_name`, `last_name` and `email`. -/
theorem SignUp_does_not_check_presence (cr : Crypto) (env : Env) (db : Store)
    (body : SignUpBody)
    (hempty : body.Email = "" ∨ body.Password = "" ∨ body.FirstName = "" ∨
      body.LastName = "") :
    (signUpStepFails cr env db (some body) = true →
      ∃ msg, SignUp cr env db (some body) = (db, ⟨400, [("error", msg)]⟩)) ∧
    (signUpStepFails cr env db (some body) = false →
      ∃ digest, cr.GenerateFromPassword env.salt body.Password 10 = some digest ∧
        SignUp cr env db (some body) =
          (⟨db.users ++ [⟨uuidNew env.rand1, body.Email, digest, ""⟩],
            db.customers ++
              [⟨uuidNew env.rand2, body.FirstName, body.LastName, uuidNew env.rand1⟩],
            db.histories⟩,
           ⟨200, [("first_name", body.FirstName), ("last_name", body.LastName),
            ("email", body.Email)]⟩)) := by
  have _ := hempty
  constructor
  · intro h
    exact SignUp_of_fails cr env db (some body) h
  · intro h
    obtain ⟨digest, hd, heq⟩ := SignUp_of_not_fails cr env db body h
    exact ⟨digest, hd, heq⟩

theorem SignUp_does_not_check_presence_witness :
    (∃ digest, demoCrypto.GenerateFromPassword demoEnv.salt "" 10 = some digest ∧
      SignUp demoCrypto demoEnv demoStore (some ⟨"", "", "Cy", ""⟩) =
        (⟨demoStore.users ++ [⟨uuidNew 2, "", digest, ""⟩],
          demoStore.customers ++ [⟨uuidNew 3, "Cy", "", uuidNew 2⟩], demoStore.histories⟩,
         ⟨200, [("first_name", "Cy"), ("last_name", ""), ("email", "")]⟩)) ∧
      ∃ msg, SignUp demoCrypto demoEnv demoStore (some ⟨"ann@example.org", "", "", ""⟩) =
        (demoStore, ⟨400, [("error", msg)]⟩) :=
  ⟨(SignUp_does_not_check_presence demoCrypto demoEnv demoStore ⟨"", "", "Cy", ""⟩
      (Or.inl rfl)).2 (by decide),
   (SignUp_does_not_check_presence demoCrypto demoEnv demoStore
      ⟨"ann@example.org", "", "", ""⟩ (Or.inr (Or.inl rfl))).1 (by decide)⟩

/-! ## LogOut: failures of the context -/

/-- C9: when the context holds no User under the key `user`, LogOut writes
nothing and leaves the store as it was; the answer is 401 when the key is
absent and 500 when its value is not a User. -/
theorem LogOut_context_failures (env : Env) (db : Store) (c : Context)
    (h : ∀ u, c.Get "user" ≠ some (CtxValue.user u)) :
    LogOut env db c =
      (db, if c.Get "user" = none then ⟨401, [("error", "User not found")]⟩
        else ⟨500, [("error", "Failed to cast user object")]⟩) := by
  unfold LogOut
  split
  · rename_i heq
    simp [heq]
  · rename_i u heq
    exact absurd heq (h u)
  · rename_i v hv heq
    simp [heq]

theorem LogOut_context_failures_witness :
    LogOut demoEnv demoStore [] = (demoStore, ⟨401, [("error", "User not found")]⟩) ∧
      LogOut demoEnv demoStore
          [("user", CtxValue.userPtr ⟨9, "bob@example.org", "bcrypt:pw2", "xxxxxxxxx"⟩)] =
        (demoStore, ⟨500, [("error", "Failed to cast user object")]⟩) :=
  ⟨LogOut_context_failures demoEnv demoStore [] (by simp [Context.Get]),
   LogOut_context_failures demoEnv demoStore
    [("user", CtxValue.userPtr ⟨9, "bob@example.org", "bcrypt:pw2", "xxxxxxxxx"⟩)]
    (by simp [Context.Get])⟩

/-! ## LogIn -/

/-- C5: a LogIn request whose email matches no stored User is answered 401
"User not found" and the store is left as it was. -/
theorem LogIn_unknown_email (cr : Crypto) (env : Env) (db : Store) (body : LogInBody)
    (h : ∀ u ∈ db.users, u.Email ≠ body.Email) :
    LogIn cr env db (some body) = (db, ⟨401, [("error", "User not found")]⟩) := by
  have hnone : firstUserByEmail db body.Email = none := by
    unfold firstUserByEmail
    rw [firstBy_eq_none]
    intro r hr
    simpa using h r hr
  simp [LogIn, hnone, User.zero]

theorem LogIn_unknown_email_witness :
    LogIn demoCrypto demoEnv demoStore (some ⟨"cy@example.org", "pw"⟩) =
      (demoStore, ⟨401, [("error", "User not found")]⟩) :=
  LogIn_unknown_email demoCrypto demoEnv demoStore ⟨"cy@example.org", "pw"⟩ (by decide)

theorem unix_thirty_days (t : Int) : unix (t + hour * 24 * 30) = unix t + 2592000 := by
  unfold unix hour
  omega

theorem saveUser_err (fault : Bool) (u : User) (tx : Store)
    (h : (saveUser fault u tx).2 ≠ none) : (saveUser fault u tx).1 = tx := by
  unfold saveUser at h ⊢
  split
  · rename_i h0
    rw [if_pos h0] at h
    exact createUser_err _ _ _ h
  · rename_i h0
    rw [if_neg h0] at h
    split
    · rfl
    · rename_i h1
      rw [if_neg h1] at h
      split
      · rename_i h2
        rw [if_pos h2] at h
        split
        · rfl
        · rename_i h3
          rw [if_neg h3] at h
          exact absurd rfl h
      · rename_i h2
        rw [if_neg h2] at h
        exact createUser_err _ _ _ h

theorem saveUser_fault (u : User) (tx : Store) : (saveUser true u tx).2 ≠ none := by
  unfold saveUser createUser
  split <;> simp

theorem saveUser_ok (fault : Bool) (u : User) (tx : Store)
    (hid : u.ID ≠ uuidNil) (hrow : ∃ r ∈ tx.users, r.ID = u.ID)
    (h : (saveUser fault u tx).2 = none) :
    saveUser fault u tx =
      (⟨tx.users.map (fun r => if r.ID = u.ID then u else r), tx.customers, tx.histories⟩,
        none) ∧
      ∀ r ∈ tx.users, r.ID ≠ u.ID → r.Email ≠ u.Email := by
  unfold saveUser at h ⊢
  rw [if_neg hid] at h ⊢
  split at h
  · simp at h
  · rename_i h1
    rw [if_neg h1, if_pos hrow]
    try rw [if_pos hrow] at h
    split at h
    · simp at h
    · rename_i h2
      rw [if_neg h2]
      refine ⟨rfl, ?_⟩
      intro r hr hne he
      exact h2 ⟨r, hr, hne, he⟩

theorem saveUser_customers (fault : Bool) (u : User) (tx : Store) :
    (saveUser fault u tx).1.customers = tx.customers ∧
      (saveUser fault u tx).1.histories = tx.histories := by
  unfold saveUser createUser
  repeat' split
  all_goals exact ⟨rfl, rfl⟩

theorem createHistory_ok (fault : Bool) (h : History) (tx : Store)
    (hc : ∃ c ∈ tx.customers, c.ID = h.Customer.ID)
    (hok : (createHistory fault h tx).2 = none) :
    createHistory fault h tx = (⟨tx.users, tx.customers, tx.histories ++ [h]⟩, none) ∧
      ∀ r ∈ tx.histories, r.HistoryID ≠ h.HistoryID := by
  unfold createHistory at hok ⊢
  split at hok
  · simp at hok
  · rename_i h1
    rw [if_neg h1]
    simp only [if_pos hc] at hok ⊢
    split at hok
    · simp at hok
    · rename_i h2
      rw [if_neg h2]
      refine ⟨rfl, ?_⟩
      intro r hr he
      exact h2 ⟨r, hr, he⟩

theorem createHistory_fault (h : History) (tx : Store) :
    (createHistory true h tx).2 ≠ none := by
  simp [createHistory]

theorem firstCustomer_mem (tx : Store) (id : UUID) (c : Customer)
    (h : firstCustomerByUserID tx id = some c) : c ∈ tx.customers ∧ c.UserID = id := by
  have := firstBy_some _ _ _ _ h
  simpa using this

theorem firstUser_mem (db : Store) (email : String) (u : User)
    (h : firstUserByEmail db email = some u) : u ∈ db.users ∧ u.Email = email := by
  have := firstBy_some _ _ _ _ h
  simpa using this

theorem logInTx_ok (cr : Crypto) (env : Env) (u : User) (db : Store)
    (hu : u ∈ db.users) (hid : u.ID ≠ uuidNil)
    (h : (logInTx cr env u db).2.2 = none) :
    ∃ tok c, cr.SignedString env.secret ⟨u.ID, unix env.now1 + 2592000⟩ = some tok ∧
      firstCustomerByUserID db u.ID = some c ∧
      logInTx cr env u db =
        ({ u with Token := tok },
         ⟨db.users.map (fun r => if r.ID = u.ID then { u with Token := tok } else r),
          db.customers,
          db.histories ++ [⟨uuidNew env.rand1, env.now2, "User logged in", c.ID, c⟩]⟩,
         none) := by
  simp only [logInTx, unix_thirty_days] at h ⊢
  cases hs : cr.SignedString env.secret ⟨u.ID, unix env.now1 + 2592000⟩ with
  | none => simp [hs] at h
  | some tok =>
    simp only [hs] at h ⊢
    cases hsave : saveUser env.saveUserErr { u with Token := tok } db with
    | mk tx1 e1 =>
      simp only [hsave] at h ⊢
      cases e1 with
      | some e => simp at h
      | none =>
        have hsv := (saveUser_ok env.saveUserErr { u with Token := tok } db hid
          ⟨u, hu, rfl⟩ (by rw [hsave])).1
        rw [hsave] at hsv
        simp only [Prod.mk.injEq, and_true] at hsv
        subst hsv
        simp only [firstCustomerByUserID] at h ⊢
        cases hc : firstBy Customer.ID (fun c => decide (c.UserID = u.ID)) db.customers with
        | none => simp [hc] at h
        | some c =>
          simp only [hc] at h ⊢
          have hcm := (firstBy_some _ _ _ _ hc).1
          cases hh : createHistory env.createHistoryErr
              ⟨uuidNew env.rand1, env.now2, "User logged in", c.ID, c⟩
              ⟨db.users.map (fun r => if r.ID = u.ID then { u with Token := tok } else r),
                db.customers, db.histories⟩ with
          | mk tx2 e2 =>
            simp only [hh] at h ⊢
            cases e2 with
            | some e => simp at h
            | none =>
              have hhv := (createHistory_ok env.createHistoryErr
                ⟨uuidNew env.rand1, env.now2, "User logged in", c.ID, c⟩
                ⟨db.users.map (fun r => if r.ID = u.ID then { u with Token := tok } else r),
                  db.customers, db.histories⟩ ⟨c, hcm, rfl⟩ (by rw [hh])).1
              rw [hh] at hhv
              simp only [Prod.mk.injEq, and_true] at hhv
              subst hhv
              exact ⟨tok, c, rfl, rfl, rfl⟩

theorem logInTx_fails (cr : Crypto) (env : Env) (u : User) (db : Store)
    (h : cr.SignedString env.secret ⟨u.ID, unix env.now1 + 2592000⟩ = none ∨
      env.saveUserErr = true ∨ (∀ c ∈ db.customers, c.UserID ≠ u.ID) ∨
      env.createHistoryErr = true) :
    (logInTx cr env u db).2.2 ≠ none := by
  simp only [logInTx, unix_thirty_days]
  split
  · simp
  · rename_i tok hs
    split
    · simp
    · rename_i tx1 hsave
      split
      · simp
      · rename_i c hc
        split
        · simp
        · rename_i tx2 hh
          exfalso
          rcases h with h | h | h | h
          · rw [hs] at h
            exact Option.noConfusion h
          · rw [h] at hsave
            exact saveUser_fault _ _ (by rw [hsave])
          · have hcm := firstCustomer_mem _ _ _ hc
            have hcust := (saveUser_customers env.saveUserErr { u with Token := tok } db).1
            rw [hsave] at hcust
            simp only at hcust
            rw [hcust] at hcm
            exact h c hcm.1 hcm.2
          · rw [h] at hh
            exact createHistory_fault _ _ (by rw [hh])

theorem LogIn_of_first (cr : Crypto) (env : Env) (db : Store) (body : LogInBody) (u : User)
    (hf : firstUserByEmail db body.Email = some u) (hid : u.ID ≠ uuidNil)
    (hpw : cr.CompareHashAndPassword u.Password body.Password = true) :
    LogIn cr env db (some body) =
      match Transaction db (logInTx cr env u) with
      | (_, db1, some _) =>
        (db1, ⟨400, [("error", "Failed to create token and update user")]⟩)
      | (user1, db1, none) => (db1, ⟨200, [("token", user1.Token)]⟩) := by
  simp [LogIn, hf, hid, hpw]

theorem WF.firstUserByEmail_eq {cr : Crypto} {db : Store} (hwf : WF cr db) (u : User)
    (hu : u ∈ db.users) : firstUserByEmail db u.Email = some u := by
  unfold firstUserByEmail
  apply firstBy_unique _ _ _ _ hu (by simp)
  intro r hr he
  exact List.inj_on_of_nodup_map hwf.userEmails hr hu (by simpa using he)

theorem WF.firstCustomerByUserID_eq {cr : Crypto} {db : Store} (hwf : WF cr db)
    (c : Customer) (hc : c ∈ db.customers) : firstCustomerByUserID db c.UserID = some c := by
  unfold firstCustomerByUserID
  apply firstBy_unique _ _ _ _ hc (by simp)
  intro r hr he
  exact List.inj_on_of_nodup_map hwf.customerUsers hr hc (by simpa using he)

theorem demoStore_WF : WF demoCrypto demoStore :=
  ⟨by decide, by decide, by decide, by decide, by decide, by decide, by decide, by decide⟩

/-- C6: a LogIn request whose email matches a stored User and whose password
does not verify against that User's hash is answered 400 "Incorrect password",
without a token, and leaves the store, the User's token included, as it was. -/
theorem LogIn_wrong_password (cr : Crypto) (env : Env) (db : Store) (body : LogInBody)
    (u : User) (hwf : WF cr db) (hu : u ∈ db.users) (he : u.Email = body.Email)
    (hpw : cr.CompareHashAndPassword u.Password body.Password = false) :
    LogIn cr env db (some body) = (db, ⟨400, [("error", "Incorrect password")]⟩) := by
  have hf := hwf.firstUserByEmail_eq u hu
  rw [he] at hf
  have hid := hwf.userIDsNotNil u hu
  simp [LogIn, hf, hid, hpw]

theorem LogIn_wrong_password_witness :
    LogIn demoCrypto demoEnv demoStore (some ⟨"bob@example.org", "pw"⟩) =
      (demoStore, ⟨400, [("error", "Incorrect password")]⟩) :=
  LogIn_wrong_password demoCrypto demoEnv demoStore ⟨"bob@example.org", "pw"⟩
    ⟨9, "bob@example.org", "bcrypt:pw2", "xxxxxxxxx"⟩ demoStore_WF (by decide) rfl (by decide)

/-- C7: a LogIn request that passes the email lookup and the password check and
whose transaction fails at any step (the signing fails, the save of the User
fails, the User has no Customer, the insert of the History row fails, or the
closure returns an error at whichever step) leaves the store as it was, the
stored token and the History table included, and is answered with the generic
400 failure, which holds no token. -/
theorem LogIn_transaction_failure (cr : Crypto) (env : Env) (db : Store) (body : LogInBody)
    (u : User) (hf : firstUserByEmail db body.Email = some u) (hid : u.ID ≠ uuidNil)
    (hpw : cr.CompareHashAndPassword u.Password body.Password = true)
    (hfail : cr.SignedString env.secret ⟨u.ID, unix env.now1 + 2592000⟩ = none ∨
      env.saveUserErr = true ∨ (∀ c ∈ db.customers, c.UserID ≠ u.ID) ∨
      env.createHistoryErr = true ∨ (logInTx cr env u db).2.2 ≠ none) :
    LogIn cr env db (some body) =
      (db, ⟨400, [("error", "Failed to create token and update user")]⟩) := by
  have herr : (logInTx cr env u db).2.2 ≠ none := by
    rcases hfail with h | h | h | h | h
    · exact logInTx_fails cr env u db (Or.inl h)
    · exact logInTx_fails cr env u db (Or.inr (Or.inl h))
    · exact logInTx_fails cr env u db (Or.inr (Or.inr (Or.inl h)))
    · exact logInTx_fails cr env u db (Or.inr (Or.inr (Or.inr h)))
    · exact h
  have ht := Transaction_err db (logInTx cr env u) herr
  rw [LogIn_of_first cr env db body u hf hid hpw]
  split
  · rename_i v db1 e heq
    rw [heq] at ht
    simp only at ht
    rw [ht.1]
  · rename_i v db1 heq
    rw [heq] at ht
    simp at ht

theorem LogIn_transaction_failure_witness :
    LogIn demoCrypto demoEnvHistoryErr demoStore (some ⟨"ann@example.org", "pw"⟩) =
      (demoStore, ⟨400, [("error", "Failed to create token and update user")]⟩) :=
  LogIn_transaction_failure demoCrypto demoEnvHistoryErr demoStore
    ⟨"ann@example.org", "pw"⟩ ⟨7, "ann@example.org", "bcrypt:pw", ""⟩ (by decide)
    (by decide) (by decide) (Or.inr (Or.inr (Or.inr (Or.inl rfl))))

/-! ## The invariant is kept by every statement and every handler -/

theorem nodup_map_append_singleton {α β : Type} (f : α → β) (l : List α) (a : α)
    (hl : (l.map f).Nodup) (ha : ∀ r ∈ l, f r ≠ f a) : ((l ++ [a]).map f).Nodup := by
  rw [List.map_append, List.nodup_append]
  refine ⟨hl, by simp, ?_⟩
  rw [List.disjoint_iff_ne]
  intro x hx y hy
  simp only [List.map_cons, List.map_nil, List.mem_singleton] at hy
  obtain ⟨r, hr, rfl⟩ := List.mem_map.1 hx
  rw [hy]
  exact ha r hr

theorem WF_empty (cr : Crypto) : WF cr emptyStore :=
  ⟨by simp [emptyStore], by simp [emptyStore], by simp [emptyStore], by simp [emptyStore],
   by simp [emptyStore], by simp [emptyStore], by simp [emptyStore], by simp [emptyStore]⟩

theorem WF_createUser (cr : Crypto) (fault : Bool) (u : User) (db : Store) (hwf : WF cr db)
    (hid : u.ID ≠ uuidNil) (htok : u.Token ≠ "" → cr.subject u.Token = some u.ID) :
    WF cr (createUser fault u db).1 := by
  cases hres : (createUser fault u db).2 with
  | some e =>
    rw [createUser_err fault u db (by rw [hres]; simp)]
    exact hwf
  | none =>
    obtain ⟨heq, _, hfid, hfem⟩ := createUser_ok fault u db hres
    rw [heq]
    refine ⟨nodup_map_append_singleton _ _ _ hwf.userIDs hfid,
      nodup_map_append_singleton _ _ _ hwf.userEmails hfem, ?_, ?_, hwf.customerIDs,
      hwf.customerUsers, ?_, hwf.historyIDs⟩
    · intro r hr
      rcases List.mem_append.1 hr with h | h
      · exact hwf.userIDsNotNil r h
      · rw [List.mem_singleton.1 h]
        exact hid
    · intro r hr
      rcases List.mem_append.1 hr with h | h
      · exact hwf.userTokens r h
      · rw [List.mem_singleton.1 h]
        exact htok
    · intro c hc
      obtain ⟨w, hw, hwc⟩ := hwf.customerOwner c hc
      exact ⟨w, List.mem_append_left _ hw, hwc⟩

theorem WF_createCustomer (cr : Crypto) (fault : Bool) (c : Customer) (db : Store)
    (hwf : WF cr db) (howner : ∃ w ∈ db.users, w.ID = c.UserID)
    (hfresh : ∀ r ∈ db.customers, r.UserID ≠ c.UserID) :
    WF cr (createCustomer fault c db).1 := by
  cases hres : (createCustomer fault c db).2 with
  | some e =>
    rw [createCustomer_err fault c db (by rw [hres]; simp)]
    exact hwf
  | none =>
    obtain ⟨heq, _, hfid⟩ := createCustomer_ok fault c db hres
    rw [heq]
    refine ⟨hwf.userIDs, hwf.userEmails, hwf.userIDsNotNil, hwf.userTokens,
      nodup_map_append_singleton _ _ _ hwf.customerIDs hfid,
      nodup_map_append_singleton _ _ _ hwf.customerUsers hfresh, ?_, hwf.historyIDs⟩
    intro r hr
    rcases List.mem_append.1 hr with h | h
    · exact hwf.customerOwner r h
    · rw [List.mem_singleton.1 h]
      exact howner

theorem WF_updateUser (cr : Crypto) (u : User) (db : Store) (hwf : WF cr db)
    (hid : u.ID ≠ uuidNil) (htok : u.Token ≠ "" → cr.subject u.Token = some u.ID)
    (hem : ∀ r ∈ db.users, r.ID ≠ u.ID → r.Email ≠ u.Email) :
    WF cr ⟨db.users.map (fun r => if r.ID = u.ID then u else r), db.customers,
      db.histories⟩ := by
  have hids : (db.users.map (fun r => if r.ID = u.ID then u else r)).map User.ID =
      db.users.map User.ID := by
    rw [List.map_map]
    apply List.map_congr_left
    intro a _
    simp only [Function.comp]
    split
    · rename_i h
      exact h.symm
    · rfl
  have hnd : ((db.users.map (fun r => if r.ID = u.ID then u else r)).map User.ID).Nodup := by
    rw [hids]
    exact hwf.userIDs
  refine ⟨hnd, ?_, ?_, ?_, hwf.customerIDs, hwf.customerUsers, ?_, hwf.historyIDs⟩
  · rw [List.nodup_map_iff_inj_on (List.Nodup.of_map _ hnd)]
    intro x hx y hy hxy
    obtain ⟨a, ha, rfl⟩ := List.mem_map.1 hx
    obtain ⟨b, hb, rfl⟩ := List.mem_map.1 hy
    by_cases h1 : a.ID = u.ID <;> by_cases h2 : b.ID = u.ID
    · simp [h1, h2]
    · simp only [h1, h2, if_true, if_false] at hxy ⊢
      exact absurd hxy.symm (hem b hb h2)
    · simp only [h1, h2, if_true, if_false] at hxy ⊢
      exact absurd hxy (hem a ha h1)
    · simp only [h1, h2, if_false] at hxy ⊢
      exact List.inj_on_of_nodup_map hwf.userEmails ha hb hxy
  · intro x hx
    obtain ⟨a, ha, rfl⟩ := List.mem_map.1 hx
    split
    · exact hid
    · exact hwf.userIDsNotNil a ha
  · intro x hx
    obtain ⟨a, ha, rfl⟩ := List.mem_map.1 hx
    split
    · exact htok
    · exact hwf.userTokens a ha
  · intro c hc
    obtain ⟨w, hw, hwc⟩ := hwf.customerOwner c hc
    refine ⟨if w.ID = u.ID then u else w, List.mem_map.2 ⟨w, hw, rfl⟩, ?_⟩
    split
    · rename_i h
      rw [← h]
      exact hwc
    · exact hwc

theorem WF_saveUser (cr : Crypto) (fault : Bool) (u : User) (db : Store) (hwf : WF cr db)
    (hid : u.ID ≠ uuidNil) (htok : u.Token ≠ "" → cr.subject u.Token = some u.ID) :
    WF cr (saveUser fault u db).1 := by
  by_cases hrow : ∃ r ∈ db.users, r.ID = u.ID
  · cases hres : (saveUser fault u db).2 with
    | some e =>
      rw [saveUser_err fault u db (by rw [hres]; simp)]
      exact hwf
    | none =>
      obtain ⟨heq, hem⟩ := saveUser_ok fault u db hid hrow hres
      rw [heq]
      exact WF_updateUser cr u db hwf hid htok hem
  · have heq : saveUser fault u db = createUser fault u db := by
      unfold saveUser
      rw [if_neg hid, if_neg hrow]
      cases fault <;> simp [createUser]
    rw [heq]
    exact WF_createUser cr fault u db hwf hid htok

theorem WF_createHistory (cr : Crypto) (fault : Bool) (h : History) (db : Store)
    (hwf : WF cr db) (hc : ∃ c ∈ db.customers, c.ID = h.Customer.ID) :
    WF cr (createHistory fault h db).1 := by
  cases hres : (createHistory fault h db).2 with
  | some e =>
    have heq : (createHistory fault h db).1 = db := by
      unfold createHistory
      split
      · rfl
      · simp only [if_pos hc]
        split
        · rfl
        · rename_i h1 h2
          simp [createHistory, h1, hc, h2] at hres
    rw [heq]
    exact hwf
  | none =>
    obtain ⟨heq, hfid⟩ := createHistory_ok fault h db hc hres
    rw [heq]
    exact ⟨hwf.userIDs, hwf.userEmails, hwf.userIDsNotNil, hwf.userTokens, hwf.customerIDs,
      hwf.customerUsers, hwf.customerOwner,
      nodup_map_append_singleton _ _ _ hwf.historyIDs hfid⟩

theorem WF_Transaction {σ : Type} (cr : Crypto) (db : Store)
    (fc : Store → σ × Store × Option Err) (hwf : WF cr db) (hfc : WF cr (fc db).2.1) :
    WF cr (Transaction db fc).2.1 := by
  unfold Transaction
  split
  · rename_i v tx heq
    rw [heq] at hfc
    exact hfc
  · exact hwf

theorem WF_signUpTx (cr : Crypto) (env : Env) (body : SignUpBody) (digest : String)
    (db : Store) (hwf : WF cr db) : WF cr (signUpTx env body digest db).2.1 := by
  have h1 : WF cr (createUser env.createUserErr (newUser env body digest) db).1 :=
    WF_createUser cr _ _ db hwf (uuidNew_ne_nil _) (fun h => absurd rfl h)
  unfold newUser at h1
  simp only [signUpTx]
  split
  · rename_i tx1 e heq
    rw [heq] at h1
    exact h1
  · rename_i tx1 heq
    have hok := createUser_ok env.createUserErr ⟨uuidNew env.rand1, body.Email, digest, ""⟩ db
      (by rw [heq])
    rw [heq] at h1
    have htx1 : tx1 = ⟨db.users ++ [⟨uuidNew env.rand1, body.Email, digest, ""⟩],
        db.customers, db.histories⟩ := by
      have := hok.1
      rw [heq] at this
      exact (Prod.mk.inj this).1
    have h2 : WF cr (createCustomer env.createCustomerErr
        ⟨uuidNew env.rand2, body.FirstName, body.LastName, uuidNew env.rand1⟩ tx1).1 := by
      apply WF_createCustomer cr _ _ tx1 h1
      · rw [htx1]
        exact ⟨⟨uuidNew env.rand1, body.Email, digest, ""⟩, by simp, rfl⟩
      · intro r hr he
        rw [htx1] at hr
        obtain ⟨w, hw, hwr⟩ := hwf.customerOwner r hr
        exact hok.2.2.1 w hw (hwr.trans he)
    split
    · rename_i tx2 e heq2
      rw [heq2] at h2
      exact h2
    · rename_i tx2 heq2
      rw [heq2] at h2
      exact h2

/-- The handler `SignUp` keeps the invariant. -/
theorem WF_SignUp (cr : Crypto) (env : Env) (db : Store) (req : Option SignUpBody)
    (hwf : WF cr db) : WF cr (SignUp cr env db req).1 := by
  cases req with
  | none => exact hwf
  | some body =>
    simp only [SignUp]
    cases hd : cr.GenerateFromPassword env.salt body.Password 10 with
    | none => exact hwf
    | some digest =>
      have ht := WF_Transaction cr db (signUpTx env body digest) hwf
        (WF_signUpTx cr env body digest db hwf)
      simp only
      split
      · rename_i v db1 e heq
        rw [heq] at ht
        exact ht
      · rename_i v db1 heq
        rw [heq] at ht
        exact ht

theorem WF_logInTx (cr : Crypto) (env : Env) (u : User) (db : Store) (hwf : WF cr db)
    (hid : u.ID ≠ uuidNil) : WF cr (logInTx cr env u db).2.1 := by
  simp only [logInTx]
  split
  · exact hwf
  · rename_i tok hs
    have h1 : WF cr (saveUser env.saveUserErr { u with Token := tok } db).1 :=
      WF_saveUser cr _ _ db hwf hid (fun _ => cr.subject_SignedString _ _ _ hs)
    split
    · rename_i tx1 e heq
      rw [heq] at h1
      exact h1
    · rename_i tx1 heq
      rw [heq] at h1
      split
      · exact h1
      · rename_i c hc
        have hcm := (firstCustomer_mem _ _ _ hc).1
        have h2 : WF cr (createHistory env.createHistoryErr
            ⟨uuidNew env.rand1, env.now2, "User logged in", c.ID, c⟩ tx1).1 :=
          WF_createHistory cr _ _ tx1 h1 ⟨c, hcm, rfl⟩
        split
        · rename_i tx2 e heq2
          rw [heq2] at h2
          exact h2
        · rename_i tx2 heq2
          rw [heq2] at h2
          exact h2

/-- The handler `LogIn` keeps the invariant. -/
theorem WF_LogIn (cr : Crypto) (env : Env) (db : Store) (req : Option LogInBody)
    (hwf : WF cr db) : WF cr (LogIn cr env db req).1 := by
  unfold LogIn
  split
  · exact hwf
  · rename_i body
    simp only
    split
    · exact hwf
    · rename_i hid
      split
      · exact hwf
      · have ht := WF_Transaction cr db
          (logInTx cr env ((firstUserByEmail db body.Email).getD User.zero)) hwf
          (WF_logInTx cr env _ db hwf hid)
        split
        · rename_i v db1 e heq
          rw [heq] at ht
          exact ht
        · rename_i v db1 heq
          rw [heq] at ht
          exact ht

/-- The handler `LogOut` keeps the invariant when the User of the context, if
any, has an identifier other than `uuid.Nil`. -/
theorem WF_LogOut (cr : Crypto) (env : Env) (db : Store) (c : Context) (hwf : WF cr db)
    (hid : ∀ u, c.Get "user" = some (CtxValue.user u) → u.ID ≠ uuidNil) :
    WF cr (LogOut env db c).1 := by
  unfold LogOut
  split
  · exact hwf
  · rename_i u heq
    have h1 : WF cr (logOutTx env u db).2.1 := by
      have := WF_saveUser cr env.saveUserErr { u with Token := "" } db hwf (hid u heq)
        (fun h => absurd rfl h)
      simp only [logOutTx]
      split
      · rename_i tx1 e heq1
        rw [heq1] at this
        exact this
      · rename_i tx1 heq1
        rw [heq1] at this
        exact this
    have ht := WF_Transaction cr db (logOutTx env u) hwf h1
    split
    · rename_i v db1 e heq2
      rw [heq2] at ht
      exact ht
    · rename_i v db1 heq2
      rw [heq2] at ht
      exact ht
  · exact hwf

/-! ## LogIn: the successful path -/

theorem LogIn_success (cr : Crypto) (env : Env) (db : Store) (body : LogInBody) (u : User)
    (hf : firstUserByEmail db body.Email = some u) (hid : u.ID ≠ uuidNil)
    (hpw : cr.CompareHashAndPassword u.Password body.Password = true)
    (htx : (logInTx cr env u db).2.2 = none) :
    ∃ tok c, cr.SignedString env.secret ⟨u.ID, unix env.now1 + 2592000⟩ = some tok ∧
      firstCustomerByUserID db u.ID = some c ∧
      LogIn cr env db (some body) =
        (⟨db.users.map (fun r => if r.ID = u.ID then { u with Token := tok } else r),
          db.customers,
          db.histories ++ [⟨uuidNew env.rand1, env.now2, "User logged in", c.ID, c⟩]⟩,
         ⟨200, [("token", tok)]⟩) := by
  obtain ⟨tok, c, hs, hc, heq⟩ := logInTx_ok cr env u db (firstUser_mem _ _ _ hf).1 hid htx
  refine ⟨tok, c, hs, hc, ?_⟩
  rw [LogIn_of_first cr env db body u hf hid hpw, Transaction_ok db _ htx, heq]

theorem LogIn_status_ok (cr : Crypto) (env : Env) (db : Store) (req : Option LogInBody)
    (hok : (LogIn cr env db req).2.status = 200) :
    ∃ body u, req = some body ∧ firstUserByEmail db body.Email = some u ∧
      u.ID ≠ uuidNil ∧ cr.CompareHashAndPassword u.Password body.Password = true ∧
      (logInTx cr env u db).2.2 = none := by
  cases req with
  | none => simp [LogIn] at hok
  | some body =>
    cases hf : firstUserByEmail db body.Email with
    | none => simp [LogIn, hf, User.zero] at hok
    | some u =>
      by_cases hid : u.ID = uuidNil
      · simp [LogIn, hf, hid] at hok
      · cases hpw : cr.CompareHashAndPassword u.Password body.Password with
        | false => simp [LogIn, hf, hid, hpw] at hok
        | true =>
          refine ⟨body, u, rfl, hf, hid, hpw, ?_⟩
          by_contra hne
          have ht := Transaction_err db (logInTx cr env u) hne
          rw [LogIn_of_first cr env db body u hf hid hpw] at hok
          split at hok
          · simp at hok
          · rename_i v db1 heq
            rw [heq] at ht
            simp at ht

theorem LogIn_success_wf (cr : Crypto) (env : Env) (db : Store) (body : LogInBody)
    (u : User) (hwf : WF cr db) (hu : u ∈ db.users) (he : u.Email = body.Email)
    (hpw : cr.CompareHashAndPassword u.Password body.Password = true)
    (htx : (logInTx cr env u db).2.2 = none) :
    ∃ tok, cr.SignedString env.secret ⟨u.ID, unix env.now1 + 2592000⟩ = some tok ∧
      (LogIn cr env db (some body)).2 = ⟨200, [("token", tok)]⟩ ∧
      (LogIn cr env db (some body)).1.users =
        db.users.map (fun r => if r.ID = u.ID then { u with Token := tok } else r) ∧
      { u with Token := tok } ∈ (LogIn cr env db (some body)).1.users ∧
      firstUserByEmail (LogIn cr env db (some body)).1 body.Email =
        some { u with Token := tok } := by
  have hf := hwf.firstUserByEmail_eq u hu
  rw [he] at hf
  obtain ⟨tok, c, hs, _, heq⟩ :=
    LogIn_success cr env db body u hf (hwf.userIDsNotNil u hu) hpw htx
  have hwf1 := WF_LogIn cr env db (some body) hwf
  have hmem : ({ u with Token := tok } : User) ∈ (LogIn cr env db (some body)).1.users := by
    rw [heq]
    exact List.mem_map.2 ⟨u, hu, by simp⟩
  refine ⟨tok, hs, by rw [heq], by rw [heq], hmem, ?_⟩
  have := hwf1.firstUserByEmail_eq _ hmem
  rw [← he]
  exact this

/-- C3: a LogIn request whose email matches a stored User, whose password
verifies against that User's hash and whose transaction succeeds at time `t`
is answered 200 with the token signed with the configured secret for the
claims `sub` = the User's id and `exp` = `t` + 2592000 seconds; that token is
the one stored in the User's row afterwards, whatever the row held before, and
a second successful LogIn replaces it by its own token. -/
theorem LogIn_issues_and_stores_token (cr : Crypto) (env : Env) (db : Store)
    (body : LogInBody) (u : User) (hwf : WF cr db) (hu : u ∈ db.users)
    (he : u.Email = body.Email)
    (hpw : cr.CompareHashAndPassword u.Password body.Password = true)
    (htx : (logInTx cr env u db).2.2 = none) :
    ∃ tok, cr.SignedString env.secret ⟨u.ID, unix env.now1 + 2592000⟩ = some tok ∧
      (LogIn cr env db (some body)).2 = ⟨200, [("token", tok)]⟩ ∧
      (LogIn cr env db (some body)).1.users =
        db.users.map (fun r => if r.ID = u.ID then { u with Token := tok } else r) ∧
      firstUserByEmail (LogIn cr env db (some body)).1 body.Email =
        some { u with Token := tok } ∧
      ∀ env2 : Env,
        (logInTx cr env2 { u with Token := tok } (LogIn cr env db (some body)).1).2.2 = none →
        ∃ tok2, cr.SignedString env2.secret ⟨u.ID, unix env2.now1 + 2592000⟩ = some tok2 ∧
          (LogIn cr env2 (LogIn cr env db (some body)).1 (some body)).2 =
            ⟨200, [("token", tok2)]⟩ ∧
          firstUserByEmail (LogIn cr env2 (LogIn cr env db (some body)).1 (some body)).1
            body.Email = some { u with Token := tok2 } := by
  obtain ⟨tok, hs, hresp, husers, hmem, hfirst⟩ :=
    LogIn_success_wf cr env db body u hwf hu he hpw htx
  refine ⟨tok, hs, hresp, husers, hfirst, ?_⟩
  intro env2 htx2
  obtain ⟨tok2, hs2, hresp2, _, _, hfirst2⟩ :=
    LogIn_success_wf cr env2 (LogIn cr env db (some body)).1 body { u with Token := tok }
      (WF_LogIn cr env db (some body) hwf) hmem he hpw htx2
  exact ⟨tok2, hs2, hresp2, hfirst2⟩

theorem LogIn_issues_and_stores_token_witness :
    ∃ tok, demoCrypto.SignedString "secret" ⟨9, 1700000000 + 2592000⟩ = some tok ∧
      (LogIn demoCrypto demoEnv demoStore (some ⟨"bob@example.org", "pw2"⟩)).2 =
        ⟨200, [("token", tok)]⟩ ∧
      firstUserByEmail (LogIn demoCrypto demoEnv demoStore
        (some ⟨"bob@example.org", "pw2"⟩)).1 "bob@example.org" =
          some ⟨9, "bob@example.org", "bcrypt:pw2", tok⟩ := by
  obtain ⟨tok, h1, h2, _, h4, _⟩ :=
    LogIn_issues_and_stores_token demoCrypto demoEnv demoStore ⟨"bob@example.org", "pw2"⟩
      ⟨9, "bob@example.org", "bcrypt:pw2", "xxxxxxxxx"⟩ demoStore_WF (by decide) rfl
      (by decide) (by decide)
  exact ⟨tok, h1, h2, h4⟩

/-- C4: after a LogIn answered 200 the History table is the table before
followed by exactly one new row, whose activity is "User logged in" and whose
`CustomerID` is the id of the Customer whose `UserID` is the id of the User
that logged in. -/
theorem LogIn_appends_history (cr : Crypto) (env : Env) (db : Store)
    (req : Option LogInBody) (hwf : WF cr db)
    (hok : (LogIn cr env db req).2.status = 200) :
    ∃ body u c, req = some body ∧ u ∈ db.users ∧ u.Email = body.Email ∧
      c ∈ db.customers ∧ c.UserID = u.ID ∧
      (∀ d ∈ db.customers, d.UserID = u.ID → d = c) ∧
      (LogIn cr env db req).1.histories =
        db.histories ++ [⟨uuidNew env.rand1, env.now2, "User logged in", c.ID, c⟩] := by
  obtain ⟨body, u, rfl, hf, hid, hpw, htx⟩ := LogIn_status_ok cr env db req hok
  obtain ⟨tok, c, _, hc, heq⟩ := LogIn_success cr env db body u hf hid hpw htx
  have hum := firstUser_mem _ _ _ hf
  have hcm := firstCustomer_mem _ _ _ hc
  refine ⟨body, u, c, rfl, hum.1, hum.2, hcm.1, hcm.2, ?_, by rw [heq]⟩
  intro d hd hdu
  exact List.inj_on_of_nodup_map hwf.customerUsers hd hcm.1 (hdu.trans hcm.2.symm)

theorem LogIn_appends_history_witness :
    ∃ body u c, some (⟨"ann@example.org", "pw"⟩ : LogInBody) = some body ∧
      u ∈ demoStore.users ∧ u.Email = body.Email ∧
      c ∈ demoStore.customers ∧ c.UserID = u.ID ∧
      (∀ d ∈ demoStore.customers, d.UserID = u.ID → d = c) ∧
      (LogIn demoCrypto demoEnv demoStore (some ⟨"ann@example.org", "pw"⟩)).1.histories =
        demoStore.histories ++
          [⟨uuidNew demoEnv.rand1, demoEnv.now2, "User logged in", c.ID, c⟩] :=
  LogIn_appends_history demoCrypto demoEnv demoStore (some ⟨"ann@example.org", "pw"⟩)
    demoStore_WF (by decide)

/-! ## LogOut: the successful path -/

theorem LogOut_success (cr : Crypto) (env : Env) (db : Store) (c : Context) (u : User)
    (hwf : WF cr db) (hctx : c.Get "user" = some (CtxValue.user u)) (hu : u ∈ db.users)
    (hsave : (saveUser env.saveUserErr { u with Token := "" } db).2 = none) :
    LogOut env db c =
      (⟨db.users.map (fun r => if r.ID = u.ID then { u with Token := "" } else r),
        db.customers, db.histories⟩,
       ⟨200, [("message", "User successfully logged out")]⟩) := by
  have hid := hwf.userIDsNotNil u hu
  have hsv := (saveUser_ok env.saveUserErr { u with Token := "" } db hid ⟨u, hu, rfl⟩ hsave).1
  have htx : logOutTx env u db =
      ({ u with Token := "" },
       ⟨db.users.map (fun r => if r.ID = u.ID then { u with Token := "" } else r),
        db.customers, db.histories⟩, none) := by
    simp only [logOutTx, hsv]
  simp only [LogOut, hctx]
  rw [Transaction_ok db _ (by rw [htx]), htx]

/-- The middleware of the spec after a successful LogOut: a token of the User
that is still valid resolves the User's row. -/
theorem middlewareResolve_after_LogOut (cr : Crypto) (env : Env) (db : Store) (c : Context)
    (u : User) (parse : String → Option Claims) (now : Int) (claims : Claims)
    (hwf : WF cr db) (hctx : c.Get "user" = some (CtxValue.user u)) (hu : u ∈ db.users)
    (hsave : (saveUser env.saveUserErr { u with Token := "" } db).2 = none)
    (hparse : parse u.Token = some claims) (hsub : claims.sub = u.ID)
    (hexp : ¬ claims.exp < now) :
    middlewareResolve parse now (LogOut env db c).1 u.Token = some { u with Token := "" } := by
  have hwf1 : WF cr (LogOut env db c).1 :=
    WF_LogOut cr env db c hwf (fun v hv => by
      rw [hctx] at hv
      cases hv
      exact hwf.userIDsNotNil u hu)
  have hmem : ({ u with Token := "" } : User) ∈ (LogOut env db c).1.users := by
    rw [LogOut_success cr env db c u hwf hctx hu hsave]
    exact List.mem_map.2 ⟨u, hu, by simp⟩
  simp only [middlewareResolve, hparse, if_neg hexp, hsub, firstUserByID]
  apply firstBy_unique _ _ _ _ hmem (by simp)
  intro r hr hrid
  exact List.inj_on_of_nodup_map hwf1.userIDs hr hmem (by simpa using hrid)

/-- C8, as stated, fails in its last part: the middleware of the spec resolves a
User by the subject claim of a valid token, and after a LogOut answered 200 the
old token of the User, still valid, resolves that User. -/
theorem LogOut_old_token_resolves_counterexample :
    (⟨9, "bob@example.org", "bcrypt:pw2", "xxxxxxxxx"⟩ : User) ∈ demoStore.users ∧
      demoCrypto.SignedString demoEnv.secret ⟨9, 1702592000⟩ = some "xxxxxxxxx" ∧
      demoParse "xxxxxxxxx" = some ⟨9, 1702592000⟩ ∧
      (LogOut demoEnv demoStore
        [("user", CtxValue.user ⟨9, "bob@example.org", "bcrypt:pw2", "xxxxxxxxx"⟩)]).2 =
          ⟨200, [("message", "User successfully logged out")]⟩ ∧
      middlewareResolve demoParse 1700000001 (LogOut demoEnv demoStore
        [("user", CtxValue.user ⟨9, "bob@example.org", "bcrypt:pw2", "xxxxxxxxx"⟩)]).1
        "xxxxxxxxx" = some ⟨9, "bob@example.org", "bcrypt:pw2", ""⟩ := by
  decide

/-- C8, amended: when the context holds a User equal to its stored row and the
save succeeds, LogOut is answered 200; the stored row of that User has then the
empty token and its id, email and password hash as before, every other row of
the store is as before, and no row of the users table holds the old token, when
it was not empty. -/
theorem LogOut_clears_token (cr : Crypto) (env : Env) (db : Store) (c : Context) (u : User)
    (hwf : WF cr db) (hctx : c.Get "user" = some (CtxValue.user u)) (hu : u ∈ db.users)
    (hsave : (saveUser env.saveUserErr { u with Token := "" } db).2 = none) :
    LogOut env db c =
        (⟨db.users.map (fun r => if r.ID = u.ID then { u with Token := "" } else r),
          db.customers, db.histories⟩,
         ⟨200, [("message", "User successfully logged out")]⟩) ∧
      (∀ r ∈ (LogOut env db c).1.users, r.ID = u.ID → r = { u with Token := "" }) ∧
      ({ u with Token := "" } : User) ∈ (LogOut env db c).1.users ∧
      (∀ r ∈ db.users, r.ID ≠ u.ID → r ∈ (LogOut env db c).1.users) ∧
      (∀ r ∈ (LogOut env db c).1.users, r.ID ≠ u.ID → r ∈ db.users) ∧
      (u.Token ≠ "" → ∀ r ∈ (LogOut env db c).1.users, r.Token ≠ u.Token) := by
  have heq := LogOut_success cr env db c u hwf hctx hu hsave
  have hmap : ∀ r, r ∈ (LogOut env db c).1.users ↔
      ∃ a ∈ db.users, (if a.ID = u.ID then { u with Token := "" } else a) = r := by
    intro r
    rw [heq]
    exact List.mem_map
  refine ⟨heq, ?_, ?_, ?_, ?_, ?_⟩
  · intro r hr hrid
    obtain ⟨a, ha, har⟩ := (hmap r).1 hr
    by_cases h : a.ID = u.ID
    · rw [if_pos h] at har
      exact har.symm
    · rw [if_neg h] at har
      rw [← har] at hrid
      exact absurd hrid h
  · exact (hmap _).2 ⟨u, hu, by simp⟩
  · intro r hr hrid
    exact (hmap r).2 ⟨r, hr, by rw [if_neg hrid]⟩
  · intro r hr hrid
    obtain ⟨a, ha, har⟩ := (hmap r).1 hr
    by_cases h : a.ID = u.ID
    · rw [if_pos h] at har
      rw [← har] at hrid
      exact absurd rfl hrid
    · rw [if_neg h] at har
      rw [← har]
      exact ha
  · intro htok r hr hrt
    obtain ⟨a, ha, har⟩ := (hmap r).1 hr
    by_cases h : a.ID = u.ID
    · rw [if_pos h] at har
      rw [← har] at hrt
      exact htok hrt.symm
    · rw [if_neg h] at har
      rw [← har] at hrt
      have h1 := hwf.userTokens a ha (by rw [hrt]; exact htok)
      have h2 := hwf.userTokens u hu htok
      rw [hrt, h2] at h1
      exact h (Option.some.inj h1).symm

theorem LogOut_clears_token_witness :
    LogOut demoEnv demoStore
        [("user", CtxValue.user ⟨9, "bob@example.org", "bcrypt:pw2", "xxxxxxxxx"⟩)] =
      (⟨[⟨7, "ann@example.org", "bcrypt:pw", ""⟩, ⟨9, "bob@example.org", "bcrypt:pw2", ""⟩],
        demoStore.customers, demoStore.histories⟩,
       ⟨200, [("message", "User successfully logged out")]⟩) ∧
      ∀ r ∈ (LogOut demoEnv demoStore
        [("user", CtxValue.user ⟨9, "bob@example.org", "bcrypt:pw2", "xxxxxxxxx"⟩)]).1.users,
        r.Token ≠ "xxxxxxxxx" :=
  have h := LogOut_clears_token demoCrypto demoEnv demoStore
    [("user", CtxValue.user ⟨9, "bob@example.org", "bcrypt:pw2", "xxxxxxxxx"⟩)]
    ⟨9, "bob@example.org", "bcrypt:pw2", "xxxxxxxxx"⟩ demoStore_WF (by decide) (by decide)
    (by decide)
  ⟨h.1, h.2.2.2.2.2 (by decide)⟩

end Controllers
